import Mathlib

/-!
Verification of the Bitcoin ETL ingestion / reorg / audit engine
(`etl/etl_sync.py` and `etl/reorg_check.py`).

The SQLite tables are modelled as lists of row structures in insertion
(rowid) order.  Heights are `Nat` (block heights are non-negative);
Python ints that may be negative (`get_db_latest_height` returns `-1`)
are `Int`.  The remote node is an oracle function from heights to
optional payloads (`none` = RPC failure for that height).

The repository does not ship `sql/schema.sql`; the uniqueness keys of the
tables are modelled from the spec (§3/§4.2/§6): `blocks` has unique
`height` and unique `hash`, `transactions` has unique `txid`, and
`tx_inputs` / `tx_outputs` carry no uniqueness constraint.  `INSERT OR
REPLACE` is modelled as delete-conflicting-rows-then-append; a plain
`INSERT` is modelled as append.  SQLite foreign keys are not enforced
(the code never issues `PRAGMA foreign_keys`), so no cascades happen
beyond the explicit `DELETE` statements.
-/

set_option autoImplicit false

namespace BitcoinETL

/-- A `vin` element of a `getblock verbosity=2` transaction payload
(the fields read by `insert_input`). -/
structure VinData where
  vout : Nat
  seqno : Nat
  coinbase : String
  prevout_hash : String
  prevout_n : Nat
  deriving DecidableEq, Repr

/-- A `vout` element of a transaction payload (the fields read by
`insert_output`). -/
structure VoutData where
  n : Nat
  value : Int
  scriptPubKey_hex : String
  addresses : List String
  deriving DecidableEq, Repr

/-- A transaction element of a block payload (the fields read by
`insert_transaction`). -/
structure TxData where
  txid : String
  vin : List VinData
  vout : List VoutData
  deriving DecidableEq, Repr

/-- A remote block payload as fetched by `fetch_block`
(`getblock verbosity=2`).  `previousblockhash` is optional: the Python
code reads it with `.get`, and the genesis payload omits it. -/
structure BlockData where
  hash : String
  height : Nat
  previousblockhash : Option String
  time : Nat
  tx : List TxData
  deriving DecidableEq, Repr

/-- A row of the `blocks` table (the columns the engine reads back). -/
structure BlockRow where
  hash : String
  height : Nat
  previousblockhash : String
  time : Nat
  deriving DecidableEq, Repr

/-- A row of the `transactions` table (the columns the engine reads back). -/
structure TxRow where
  txid : String
  block_hash : String
  block_height : Nat
  block_time : Nat
  deriving DecidableEq, Repr

/-- A row of the `tx_inputs` table. -/
structure InputRow where
  txid : String
  vout : Nat
  seqno : Nat
  coinbase : String
  prevout_hash : String
  prevout_n : Nat
  deriving DecidableEq, Repr

/-- A row of the `tx_outputs` table. -/
structure OutputRow where
  txid : String
  n : Nat
  value : Int
  addresses : List String
  deriving DecidableEq, Repr

/-- The SQLite database: the four tables, each in rowid order. -/
structure Store where
  blocks : List BlockRow
  transactions : List TxRow
  tx_inputs : List InputRow
  tx_outputs : List OutputRow
  deriving DecidableEq, Repr

/-- The empty database (fresh schema). -/
def Store.empty : Store := ⟨[], [], [], []⟩

/-- The `blocks` row written by `insert_block` for a payload
(`previousblockhash` defaults to `''` via `.get('previousblockhash', '')`). -/
def blockRowOf (bd : BlockData) : BlockRow :=
  ⟨bd.hash, bd.height, bd.previousblockhash.getD "", bd.time⟩

/-- The `transactions` row written by `insert_transaction`. -/
def txRowOf (tx : TxData) (block_hash : String) (block_height block_time : Nat) : TxRow :=
  ⟨tx.txid, block_hash, block_height, block_time⟩

/-- `INSERT OR REPLACE INTO blocks`: rows conflicting with the new row on
either unique key (`height` or `hash`) are deleted, then the new row is
appended. -/
def upsertBlockRow (l : List BlockRow) (r : BlockRow) : List BlockRow :=
  l.filter (fun b => !(b.height == r.height || b.hash == r.hash)) ++ [r]

/-- `INSERT OR REPLACE INTO transactions`: rows conflicting on the unique
`txid` are deleted, then the new row is appended. -/
def upsertTxRow (l : List TxRow) (r : TxRow) : List TxRow :=
  l.filter (fun t => !(t.txid == r.txid)) ++ [r]

/-- `BitcoinETL.insert_input`: a plain `INSERT INTO tx_inputs` (append). -/
def insert_input (s : Store) (vin : VinData) (txid : String) : Store :=
  { s with tx_inputs :=
      s.tx_inputs ++ [⟨txid, vin.vout, vin.seqno, vin.coinbase, vin.prevout_hash, vin.prevout_n⟩] }

/-- `BitcoinETL.insert_output`: a plain `INSERT INTO tx_outputs` (append). -/
def insert_output (s : Store) (vout : VoutData) (txid : String) : Store :=
  { s with tx_outputs := s.tx_outputs ++ [⟨txid, vout.n, vout.value, vout.addresses⟩] }

/-- `BitcoinETL.insert_transaction`: upsert the `transactions` row, then
insert every `vin` via `insert_input` and every `vout` via
`insert_output`, in source-array order. -/
def insert_transaction (s : Store) (tx : TxData) (block_hash : String)
    (block_height block_time : Nat) : Store :=
  let r := txRowOf tx block_hash block_height block_time
  let s1 := { s with transactions := upsertTxRow s.transactions r }
  let s2 := tx.vin.foldl (fun a v => insert_input a v tx.txid) s1
  tx.vout.foldl (fun a v => insert_output a v tx.txid) s2

/-- `BitcoinETL.insert_block` (success path): upsert the `blocks` row,
then insert every transaction of the payload in order.  The fallible /
transactional version is `insert_block_txn` below; this function is the
state reached when every step succeeds and the transaction commits. -/
def insert_block (s : Store) (bd : BlockData) : Store :=
  let s1 := { s with blocks := upsertBlockRow s.blocks (blockRowOf bd) }
  bd.tx.foldl (fun a t => insert_transaction a t bd.hash bd.height bd.time) s1

/-! ### The transactional (fallible) insert path

`insert_block` in the Python code runs a sequence of SQL `execute`
statements inside one SQLite transaction and either `commit`s at the end
or `rollback`s on the first failing statement.  We list the statements
(`blockSteps`), run them against a pending state under a failure oracle
`ok : Nat → Bool` (statement `i` succeeds iff `ok i`), and commit the
pending state only when every statement succeeded; otherwise the
database is the state it had when `insert_block` was entered. -/

/-- The single-row statements issued for one transaction of the payload:
the `transactions` upsert, then one `tx_inputs` insert per `vin`, then
one `tx_outputs` insert per `vout`. -/
def txSteps (block_hash : String) (block_height block_time : Nat) (tx : TxData) :
    List (Store → Store) :=
  (fun s => { s with transactions := upsertTxRow s.transactions (txRowOf tx block_hash block_height block_time) })
    :: (tx.vin.map (fun v => fun s => insert_input s v tx.txid)
        ++ tx.vout.map (fun v => fun s => insert_output s v tx.txid))

/-- All statements issued by `insert_block` for one payload, in program
order: the `blocks` upsert, then the statements of each transaction. -/
def blockSteps (bd : BlockData) : List (Store → Store) :=
  (fun s => { s with blocks := upsertBlockRow s.blocks (blockRowOf bd) })
    :: bd.tx.flatMap (txSteps bd.hash bd.height bd.time)

/-- Run a list of statements against a pending state; statement number
`i` fails iff `ok i = false`, in which case the whole run reports
failure (`none`). -/
def runSteps (ok : Nat → Bool) : List (Store → Store) → Nat → Store → Option Store
  | [], _, s => some s
  | f :: fs, i, s => if ok i then runSteps ok fs (i + 1) (f s) else none

/-- `BitcoinETL.insert_block`, transactional semantics: if every
statement succeeds the pending state is committed, otherwise
`conn.rollback()` restores the state from before the call. -/
def insert_block_txn (s : Store) (bd : BlockData) (ok : Nat → Bool) : Store :=
  match runSteps ok (blockSteps bd) 0 s with
  | some s2 => s2
  | none => s

/-! ### Reorg detection (`BitcoinETL.handle_reorg`) -/

/-- `SELECT hash FROM blocks WHERE height = ?` followed by `fetchone()`:
the hash of the first stored row with the given height, if any. -/
def localHashAt (s : Store) (k : Nat) : Option String :=
  (s.blocks.find? (fun b => b.height == k)).map BlockRow.hash

/-- The backward fork-point walk of `handle_reorg`: starting at height
`k` and walking down to `0`, return the first (highest) height whose
locally stored hash equals the incoming block's `previousblockhash` `p`;
`none` if the walk passes below height `0` without a match.  Note that
every comparison is against the fixed string `p` — the walk makes no
remote calls. -/
def findFork (s : Store) (p : String) : Nat → Option Nat
  | 0 => if localHashAt s 0 = some p then some 0 else none
  | k + 1 => if localHashAt s (k + 1) = some p then some (k + 1) else findFork s p k

/-- The four `DELETE` statements of `handle_reorg`, in program order:
blocks above the fork, then transactions above the fork, then the
`tx_inputs` / `tx_outputs` rows whose `txid` appears in
`SELECT txid FROM transactions WHERE block_height > fork` — a subquery
evaluated *after* those transactions were already deleted. -/
def truncate_after (s : Store) (fork : Nat) : Store :=
  let blocks2 := s.blocks.filter (fun b => !decide (b.height > fork))
  let txs2 := s.transactions.filter (fun t => !decide (t.block_height > fork))
  let doomed := (txs2.filter (fun t => decide (t.block_height > fork))).map TxRow.txid
  let inputs2 := s.tx_inputs.filter (fun i => !(doomed.contains i.txid))
  let outputs2 := s.tx_outputs.filter (fun o => !(doomed.contains o.txid))
  ⟨blocks2, txs2, inputs2, outputs2⟩

/-- The divergence branch of `handle_reorg`: walk back from
`height - 1`; on a fork point truncate and return `true`, otherwise
(walk exhausted, or `height = 0` so the walk starts below `0`) return
`false` with the store untouched — no error is raised. -/
def handle_reorg_walk (s : Store) (nb : BlockData) (p : String) : Bool × Store :=
  if nb.height = 0 then (false, s)
  else
    match findFork s p (nb.height - 1) with
    | some fork => (true, truncate_after s fork)
    | none => (false, s)

/-- `BitcoinETL.handle_reorg`: returns whether a truncation happened,
together with the resulting store.  A falsy `previousblockhash`
(absent or `''`) returns `false` immediately; if a stored block carries
that hash at height `height - 1` the chain is continuous; otherwise the
backward walk runs. -/
def handle_reorg (s : Store) (nb : BlockData) : Bool × Store :=
  match nb.previousblockhash with
  | none => (false, s)
  | some p =>
    if p = "" then (false, s)
    else
      match s.blocks.find? (fun b => b.hash == p) with
      | some pb =>
        if pb.height + 1 = nb.height then (false, s)
        else handle_reorg_walk s nb p
      | none => handle_reorg_walk s nb p

/-- One iteration of the `sync_blocks` per-height loop after the payload
was fetched: run `handle_reorg`, then `insert_block` on the resulting
store (the block is inserted whether or not a truncation happened, and
also when the walk found no fork point). -/
def sync_step (s : Store) (bd : BlockData) : Store :=
  insert_block (handle_reorg s bd).2 bd

/-! ### Checkpoint and sync-range computation (`BitcoinETL.sync_blocks`) -/

/-- `SELECT MAX(height) FROM blocks`: `none` on an empty table. -/
def maxHeight (s : Store) : Option Nat :=
  (s.blocks.map BlockRow.height).max?

/-- `BitcoinETL.get_db_latest_height`:
`return result['max_height'] if result and result['max_height'] else -1`.
The Python truthiness test sends both `NULL` (empty table) and `0` to
`-1`. -/
def get_db_latest_height (s : Store) : Int :=
  match maxHeight s with
  | none => -1
  | some m => if m = 0 then -1 else (m : Int)

/-- The first height of a sync run:
`current_height = start_height or self.get_db_latest_height() + 1`.
Python `or` falls through on the falsy values `None` and `0`. -/
def sync_start (s : Store) (start_height : Option Int) : Int :=
  match start_height with
  | none => get_db_latest_height s + 1
  | some v => if v = 0 then get_db_latest_height s + 1 else v

/-- The last height of a sync run: `min(current + max_blocks - 1, latest)`
when `max_blocks` is truthy, else the remote tip `latest`. -/
def sync_end (current : Int) (max_blocks : Option Int) (latest : Int) : Int :=
  match max_blocks with
  | none => latest
  | some m => if m = 0 then latest else min (current + m - 1) latest

/-- The heights visited by the loop `for height in range(current, end + 1)`,
in iteration order. -/
def sync_heights (current endH : Int) : List Int :=
  (List.range (endH + 1 - current).toNat).map (fun (i : Nat) => current + (i : Int))

/-! ### Consistency auditor (`ReorgChecker.check_block_consistency`) -/

/-- A remote block as assembled by the audit loop from `getblockhash`
and `getblock verbosity=1` (`previousblockhash` and `time` are read with
`.get` and default to `''` / `0`). -/
structure RemoteBlock where
  hash : String
  previousblockhash : String
  time : Nat
  deriving DecidableEq, Repr

/-- A record of the auditor's `inconsistencies` list: height, kind
(`'hash_mismatch'` or `'prev_hash_mismatch'`), the database value and
the node value. -/
structure Inconsistency where
  height : Nat
  kind : String
  db_value : String
  node_value : String
  deriving DecidableEq, Repr

/-- The auditor's report (`check_block_consistency`'s return value,
minus `check_time`).  The consistency percentage is the derived
`percentage` below. -/
structure AuditReport where
  start_height : Nat
  end_height : Nat
  total_checked : Nat
  inconsistencies : List Inconsistency
  missing_blocks : List Nat
  status : String
  deriving DecidableEq, Repr

/-- The `db_blocks` dict lookup: the dict is built in `ORDER BY height`
row order with later rows overwriting earlier ones, so a height maps to
the last stored row carrying it. -/
def auditDbAt (s : Store) (h : Nat) : Option BlockRow :=
  (s.blocks.filter (fun b => b.height == h)).getLast?

/-- The inconsistency records contributed by one height of the audit
loop: nothing when the height is missing locally (it goes to
`missing_blocks`) or missing remotely; otherwise a `hash_mismatch`
check, and — for heights above the window start with height `h - 1`
present on both sides — a `prev_hash_mismatch` check comparing the
*local stored hash at `h - 1`* with the remote block's
`previousblockhash`. -/
def heightIncons (s : Store) (remote : Nat → Option RemoteBlock) (start h : Nat) :
    List Inconsistency :=
  match auditDbAt s h with
  | none => []
  | some db =>
    match remote h with
    | none => []
    | some btc =>
      (if db.hash = btc.hash then [] else [⟨h, "hash_mismatch", db.hash, btc.hash⟩])
        ++ (if start < h then
              match auditDbAt s (h - 1), remote (h - 1) with
              | some dbp, some _ =>
                if dbp.hash = btc.previousblockhash then []
                else [⟨h, "prev_hash_mismatch", dbp.hash, btc.previousblockhash⟩]
              | _, _ => []
            else [])

/-- `ReorgChecker.check_block_consistency`: `none` when the `blocks`
table is empty (the Python raises).  The window is
`[max(0, latest - num_blocks + 1), latest]`; `total_checked` counts the
heights for which the remote fetch succeeded (`len(bitcoind_blocks)`),
and `status` is `'healthy'` iff the inconsistency list is empty —
`missing_blocks` is reported separately and does not enter `status`. -/
def check_block_consistency (s : Store) (remote : Nat → Option RemoteBlock)
    (num_blocks : Nat) : Option AuditReport :=
  match maxHeight s with
  | none => none
  | some latest =>
    let start := ((latest : Int) + 1 - num_blocks).toNat
    let hs := List.range' start (latest + 1 - start)
    let fetched := hs.filter (fun h => (remote h).isSome)
    let missing := hs.filter (fun h => (auditDbAt s h).isNone)
    let incons := hs.flatMap (heightIncons s remote start)
    some ⟨start, latest, fetched.length, incons, missing,
      if incons.length = 0 then "healthy" else "inconsistent"⟩

/-- The report's consistency percentage:
`(total - len(inconsistencies)) / total * 100` when any block was
checked, else `0`. -/
def percentage (r : AuditReport) : ℚ :=
  if 0 < r.total_checked then
    ((r.total_checked : ℚ) - r.inconsistencies.length) / r.total_checked * 100
  else 0

/-- The number of `transactions` rows carrying a given `txid`. -/
def txidCount (s : Store) (x : String) : Nat :=
  s.transactions.countP (fun r => r.txid == x)

/-! ### The fork-point search as the spec words it (for claim C4 only) -/

/-- The backward fork-point search following the spec's words (§4.3):
walk backward from `h - 1` toward the start height, *at each step height
`k` fetching the remote hash at `k`* and comparing it to the locally
stored hash at `k`, stopping at the first height where they match.
Defined only to be compared with the code's `findFork`, which instead
compares every local hash against the incoming block's fixed
`previousblockhash`. -/
def forkSearchSpec (s : Store) (remoteHash : Nat → String) : Nat → Option Nat
  | 0 => if localHashAt s 0 = some (remoteHash 0) then some 0 else none
  | k + 1 =>
    if localHashAt s (k + 1) = some (remoteHash (k + 1)) then some (k + 1)
    else forkSearchSpec s remoteHash k

/-! ### Concrete example data used by counterexamples and witnesses -/

/-- A one-input transaction payload. -/
def vinA : VinData := ⟨0, 4294967295, "04ffff", "", 0⟩

/-- A one-output transaction payload. -/
def voutA : VoutData := ⟨0, 5000000000, "41aa", ["addr1"]⟩

/-- A payload transaction with one input and one output. -/
def txA : TxData := ⟨"t1", [vinA], [voutA]⟩

/-- A block payload at height 1 carrying `txA`. -/
def blockA : BlockData := ⟨"h1", 1, some "h0", 1700000000, [txA]⟩

/-- A store holding the chain `a`(0) — `b`(1), where block `b` carries a
transaction `t1` with one input and one output. -/
def store2 : Store :=
  ⟨[⟨"a", 0, "", 10⟩, ⟨"b", 1, "a", 11⟩],
   [⟨"t1", "b", 1, 11⟩],
   [⟨"t1", 0, 7, "", "p", 0⟩],
   [⟨"t1", 0, 50, ["addr"]⟩]⟩

/-- An incoming block at height 2 whose `previousblockhash` is the
stored hash at height 0 — a reorg whose fork point is height 0. -/
def block2 : BlockData := ⟨"c", 2, some "a", 12, []⟩

/-- A store holding the chain `a`(0) — `b`(1) and nothing else. -/
def store3 : Store := ⟨[⟨"a", 0, "", 10⟩, ⟨"b", 1, "a", 11⟩], [], [], []⟩

/-- An incoming block at height 2 whose `previousblockhash` matches no
stored hash: the backward walk exhausts without a fork point. -/
def block3 : BlockData := ⟨"c", 2, some "z", 12, []⟩

/-- The remote chain of the C4 scenario: hash `a` at height 0 and hash
`x` everywhere above (the remote chain diverged at height 1). -/
def remoteHash4 (k : Nat) : String := if k = 0 then "a" else "x"

/-- An incoming block at height 2 of the remote chain `remoteHash4`
(`previousblockhash` is the remote hash at height 1). -/
def block4 : BlockData := ⟨"h2", 2, some "x", 12, []⟩

/-- Ten local blocks at heights 0–9 whose hash at height 0 was mutated
to `X`; all other fields equal the remote chain `remoteList6`. -/
def localBlocks6 : List BlockRow :=
  [⟨"X", 0, "", 100⟩, ⟨"b1", 1, "b0", 101⟩, ⟨"b2", 2, "b1", 102⟩,
   ⟨"b3", 3, "b2", 103⟩, ⟨"b4", 4, "b3", 104⟩, ⟨"b5", 5, "b4", 105⟩,
   ⟨"b6", 6, "b5", 106⟩, ⟨"b7", 7, "b6", 107⟩, ⟨"b8", 8, "b7", 108⟩,
   ⟨"b9", 9, "b8", 109⟩]

/-- The store of the C6 counterexample: `localBlocks6`, empty child tables. -/
def store6 : Store := ⟨localBlocks6, [], [], []⟩

/-- The remote chain `b0 — b1 — … — b9` (heights 0–9). -/
def remoteList6 : List RemoteBlock :=
  [⟨"b0", "", 100⟩, ⟨"b1", "b0", 101⟩, ⟨"b2", "b1", 102⟩, ⟨"b3", "b2", 103⟩,
   ⟨"b4", "b3", 104⟩, ⟨"b5", "b4", 105⟩, ⟨"b6", "b5", 106⟩, ⟨"b7", "b6", 107⟩,
   ⟨"b8", "b7", 108⟩, ⟨"b9", "b8", 109⟩]

/-- The remote oracle of the C6/C7 audit scenarios over heights 0–9. -/
def remote6 (k : Nat) : Option RemoteBlock := remoteList6[k]?

/-- Ten local blocks matching the remote chain `remoteList6` everywhere
except that the hash of the *tip* (height 9) is `tip`. -/
def localBlocks6Tip (tip : String) : List BlockRow :=
  [⟨"b0", 0, "", 100⟩, ⟨"b1", 1, "b0", 101⟩, ⟨"b2", 2, "b1", 102⟩,
   ⟨"b3", 3, "b2", 103⟩, ⟨"b4", 4, "b3", 104⟩, ⟨"b5", 5, "b4", 105⟩,
   ⟨"b6", 6, "b5", 106⟩, ⟨"b7", 7, "b6", 107⟩, ⟨"b8", 8, "b7", 108⟩,
   ⟨tip, 9, "b8", 109⟩]

/-- The store with a mutated tip hash (C6 amended scenario). -/
def store6Tip (tip : String) : Store := ⟨localBlocks6Tip tip, [], [], []⟩

/-- A store whose blocks sit at heights 0 and 2 — height 1 is locally
missing. -/
def store7 : Store := ⟨[⟨"a", 0, "", 10⟩, ⟨"c", 2, "b", 12⟩], [], [], []⟩

/-- A remote chain `a`(0) — `b`(1) — `c`(2) agreeing with `store7`
wherever the latter has a block. -/
def remote7 (k : Nat) : Option RemoteBlock :=
  if k = 0 then some ⟨"a", "", 10⟩
  else if k = 1 then some ⟨"b", "a", 11⟩
  else if k = 2 then some ⟨"c", "b", 12⟩
  else none

/-- A store whose single block sits at height 5. -/
def store8 : Store := ⟨[⟨"f", 5, "e", 50⟩], [], [], []⟩

/-- A store whose single block is at height 0 (genesis only). -/
def store9 : Store := ⟨[⟨"g", 0, "", 9⟩], [], [], []⟩

/-- The audit report produced on `store6` / `remote6` with a window of
10 blocks. -/
def report6 : AuditReport :=
  ⟨0, 9, 10,
   [⟨0, "hash_mismatch", "X", "b0"⟩, ⟨1, "prev_hash_mismatch", "X", "b0"⟩],
   [], "inconsistent"⟩

/-- The audit report produced when only the tip hash (height 9) is
mutated to `tip`. -/
def report6Tip (tip : String) : AuditReport :=
  ⟨0, 9, 10, [⟨9, "hash_mismatch", tip, "b9"⟩], [], "inconsistent"⟩

/-- The audit report produced on `store7` / `remote7` with a window of
3 blocks: height 1 is locally missing, yet the status is `healthy`. -/
def report7 : AuditReport := ⟨0, 2, 3, [], [1], "healthy"⟩

/-! ## Helper lemmas -/

/-- Folding `insert_input` over a `vin` list changes no table except
`tx_inputs`, whose length grows by the number of inputs. -/
theorem foldl_insert_input (l : List VinData) (s : Store) (txid : String) :
    (l.foldl (fun a v => insert_input a v txid) s).blocks = s.blocks
    ∧ (l.foldl (fun a v => insert_input a v txid) s).transactions = s.transactions
    ∧ (l.foldl (fun a v => insert_input a v txid) s).tx_outputs = s.tx_outputs
    ∧ (l.foldl (fun a v => insert_input a v txid) s).tx_inputs.length
        = s.tx_inputs.length + l.length := by
  induction l generalizing s with
  | nil => simp
  | cons v l ih =>
    simp only [List.foldl_cons, List.length_cons]
    obtain ⟨h1, h2, h3, h4⟩ := ih (insert_input s v txid)
    refine ⟨h1, h2, h3, ?_⟩
    rw [h4]
    simp [insert_input]
    omega

/-- Folding `insert_output` over a `vout` list changes no table except
`tx_outputs`, whose length grows by the number of outputs. -/
theorem foldl_insert_output (l : List VoutData) (s : Store) (txid : String) :
    (l.foldl (fun a v => insert_output a v txid) s).blocks = s.blocks
    ∧ (l.foldl (fun a v => insert_output a v txid) s).transactions = s.transactions
    ∧ (l.foldl (fun a v => insert_output a v txid) s).tx_inputs = s.tx_inputs
    ∧ (l.foldl (fun a v => insert_output a v txid) s).tx_outputs.length
        = s.tx_outputs.length + l.length := by
  induction l generalizing s with
  | nil => simp
  | cons v l ih =>
    simp only [List.foldl_cons, List.length_cons]
    obtain ⟨h1, h2, h3, h4⟩ := ih (insert_output s v txid)
    refine ⟨h1, h2, h3, ?_⟩
    rw [h4]
    simp [insert_output]
    omega

/-- `insert_transaction`, table by table: `blocks` untouched,
`transactions` upserted, `tx_inputs` and `tx_outputs` grown by the
source array lengths. -/
theorem insert_transaction_tables (s : Store) (tx : TxData) (bh : String)
    (bHeight bTime : Nat) :
    (insert_transaction s tx bh bHeight bTime).blocks = s.blocks
    ∧ (insert_transaction s tx bh bHeight bTime).transactions
        = upsertTxRow s.transactions (txRowOf tx bh bHeight bTime)
    ∧ (insert_transaction s tx bh bHeight bTime).tx_inputs.length
        = s.tx_inputs.length + tx.vin.length
    ∧ (insert_transaction s tx bh bHeight bTime).tx_outputs.length
        = s.tx_outputs.length + tx.vout.length := by
  unfold insert_transaction
  set s1 : Store := { s with transactions := upsertTxRow s.transactions (txRowOf tx bh bHeight bTime) } with hs1
  set s2 := tx.vin.foldl (fun a v => insert_input a v tx.txid) s1 with hs2
  obtain ⟨i1, i2, i3, i4⟩ := foldl_insert_input tx.vin s1 tx.txid
  obtain ⟨o1, o2, o3, o4⟩ := foldl_insert_output tx.vout s2 tx.txid
  rw [hs2] at o1 o2 o3 o4
  refine ⟨by rw [o1, i1], by rw [o2, i2], by rw [o3, i4], by rw [o4, i3]⟩

/-- Folding `insert_transaction` over a transaction list never touches
the `blocks` table, and grows `tx_inputs` / `tx_outputs` by the total
`vin` / `vout` lengths. -/
theorem foldl_insert_transaction (txs : List TxData) (s : Store) (bh : String)
    (bHeight bTime : Nat) :
    (txs.foldl (fun a t => insert_transaction a t bh bHeight bTime) s).blocks = s.blocks
    ∧ (txs.foldl (fun a t => insert_transaction a t bh bHeight bTime) s).tx_inputs.length
        = s.tx_inputs.length + (txs.map (fun t => t.vin.length)).sum
    ∧ (txs.foldl (fun a t => insert_transaction a t bh bHeight bTime) s).tx_outputs.length
        = s.tx_outputs.length + (txs.map (fun t => t.vout.length)).sum := by
  induction txs generalizing s with
  | nil => simp
  | cons t txs ih =>
    simp only [List.foldl_cons, List.map_cons, List.sum_cons]
    obtain ⟨h1, h2, h3⟩ := ih (insert_transaction s t bh bHeight bTime)
    obtain ⟨g1, _, g3, g4⟩ := insert_transaction_tables s t bh bHeight bTime
    exact ⟨by rw [h1, g1], by rw [h2, g3]; omega, by rw [h3, g4]; omega⟩

/-- The `blocks` table after `insert_block` is exactly the upsert of the
new block row. -/
theorem insert_block_blocks (s : Store) (bd : BlockData) :
    (insert_block s bd).blocks = upsertBlockRow s.blocks (blockRowOf bd) := by
  unfold insert_block
  exact (foldl_insert_transaction bd.tx _ bd.hash bd.height bd.time).1

/-- `insert_block` appends exactly one `tx_inputs` row per source `vin`
element: the table grows by the sum of the `vin` array lengths. -/
theorem insert_block_inputs_length (s : Store) (bd : BlockData) :
    (insert_block s bd).tx_inputs.length
      = s.tx_inputs.length + (bd.tx.map (fun t => t.vin.length)).sum := by
  unfold insert_block
  exact (foldl_insert_transaction bd.tx _ bd.hash bd.height bd.time).2.1

/-- `insert_block` appends exactly one `tx_outputs` row per source
`vout` element. -/
theorem insert_block_outputs_length (s : Store) (bd : BlockData) :
    (insert_block s bd).tx_outputs.length
      = s.tx_outputs.length + (bd.tx.map (fun t => t.vout.length)).sum := by
  unfold insert_block
  exact (foldl_insert_transaction bd.tx _ bd.hash bd.height bd.time).2.2

/-- Upserting a `transactions` row makes its `txid` occur exactly once
and leaves the occurrence count of every other `txid` unchanged. -/
theorem countP_upsertTxRow (l : List TxRow) (r : TxRow) (x : String) :
    (upsertTxRow l r).countP (fun t => t.txid == x)
      = if r.txid = x then 1 else l.countP (fun t => t.txid == x) := by
  unfold upsertTxRow
  rw [List.countP_append, List.countP_filter]
  by_cases h : r.txid = x
  · subst h
    rw [List.countP_eq_zero.mpr ?_]
    · simp
    · intro t _
      simp only [Bool.and_eq_true, beq_iff_eq, Bool.not_eq_eq_eq_not, Bool.not_true,
        not_and]
      intro he
      simp [he]
  · rw [if_neg h]
    have hc : l.countP (fun a => a.txid == x && !(a.txid == r.txid))
        = l.countP (fun t => t.txid == x) := by
      refine List.countP_congr ?_
      intro t _
      by_cases ht : t.txid = x
      · have hx : ¬ x = r.txid := fun he => h he.symm
        simp [ht, hx]
      · simp [ht]
    rw [hc]
    have : ((r.txid == x) : Bool) = false := by simpa using h
    simp [List.countP_cons, this]

/-- `insert_transaction` makes its `txid` occur exactly once in
`transactions` and preserves the count of every other `txid`. -/
theorem txidCount_insert_transaction (s : Store) (tx : TxData) (bh : String)
    (bHeight bTime : Nat) (x : String) :
    txidCount (insert_transaction s tx bh bHeight bTime) x
      = if tx.txid = x then 1 else txidCount s x := by
  unfold txidCount
  rw [(insert_transaction_tables s tx bh bHeight bTime).2.1]
  exact countP_upsertTxRow s.transactions (txRowOf tx bh bHeight bTime) x

/-- Folding `insert_transaction` over transactions none of which carry
`txid = x` preserves the occurrence count of `x`. -/
theorem txidCount_foldl_of_forall_ne (txs : List TxData) (s : Store) (bh : String)
    (bHeight bTime : Nat) (x : String) (h : ∀ t ∈ txs, t.txid ≠ x) :
    txidCount (txs.foldl (fun a t => insert_transaction a t bh bHeight bTime) s) x
      = txidCount s x := by
  induction txs generalizing s with
  | nil => rfl
  | cons t txs ih =>
    simp only [List.foldl_cons]
    rw [ih _ (fun t' ht' => h t' (List.mem_cons_of_mem _ ht')),
      txidCount_insert_transaction, if_neg (h t (List.mem_cons_self _ _))]

/-- Folding `insert_transaction` over a list of transactions with
pairwise-distinct `txid`s leaves every one of those `txid`s with
occurrence count exactly 1, whatever the starting store held. -/
theorem txidCount_foldl_of_mem (txs : List TxData) (s : Store) (bh : String)
    (bHeight bTime : Nat) (tx : TxData)
    (hd : txs.Pairwise (fun a b => a.txid ≠ b.txid)) (hm : tx ∈ txs) :
    txidCount (txs.foldl (fun a t => insert_transaction a t bh bHeight bTime) s) tx.txid
      = 1 := by
  induction txs generalizing s with
  | nil => cases hm
  | cons t txs ih =>
    simp only [List.foldl_cons]
    rcases List.mem_cons.mp hm with rfl | hm'
    · rw [txidCount_foldl_of_forall_ne txs _ bh bHeight bTime tx.txid
        (fun t' ht' => ((List.pairwise_cons.mp hd).1 t' ht').symm)]
      rw [txidCount_insert_transaction, if_pos rfl]
    · exact ih _ (List.pairwise_cons.mp hd).2 hm'

/-- The per-`txid` occurrence count after `insert_block`: 1 for the
`txid` of any payload transaction (when the payload's `txid`s are
pairwise distinct). -/
theorem txidCount_insert_block (s : Store) (bd : BlockData) (tx : TxData)
    (hd : bd.tx.Pairwise (fun a b => a.txid ≠ b.txid)) (hm : tx ∈ bd.tx) :
    txidCount (insert_block s bd) tx.txid = 1 := by
  unfold insert_block
  exact txidCount_foldl_of_mem bd.tx _ bd.hash bd.height bd.time tx hd hm

/-- A run of statements either fails (`none`) or ends in the state the
statements produce when composed in order. -/
theorem runSteps_none_or_foldl (ok : Nat → Bool) (fs : List (Store → Store)) :
    ∀ (i : Nat) (s : Store),
      runSteps ok fs i s = none
      ∨ runSteps ok fs i s = some (fs.foldl (fun a f => f a) s) := by
  induction fs with
  | nil => intro i s; exact Or.inr rfl
  | cons f fs ih =>
    intro i s
    unfold runSteps
    by_cases h : ok i
    · rw [if_pos h]
      exact ih (i + 1) (f s)
    · rw [if_neg h]
      exact Or.inl rfl

/-- Folding a `flatMap`-produced statement list equals folding the
statements of each element in turn. -/
theorem foldl_apply_flatMap {α : Type} (l : List α) (g : α → List (Store → Store)) :
    ∀ s : Store,
      (l.flatMap g).foldl (fun a f => f a) s
        = l.foldl (fun a x => (g x).foldl (fun a f => f a) a) s := by
  induction l with
  | nil => intro s; rfl
  | cons x l ih =>
    intro s
    rw [List.flatMap_cons, List.foldl_append, List.foldl_cons, ih]

/-- The statement list of one transaction, run in order, is exactly
`insert_transaction`. -/
theorem foldl_txSteps (tx : TxData) (bh : String) (bHeight bTime : Nat) (s : Store) :
    (txSteps bh bHeight bTime tx).foldl (fun a f => f a) s
      = insert_transaction s tx bh bHeight bTime := by
  unfold txSteps insert_transaction
  rw [List.foldl_cons, List.foldl_append, List.foldl_map, List.foldl_map]

/-- Running each transaction's statement list in turn is the fold of
`insert_transaction`. -/
theorem foldl_txSteps_list (txs : List TxData) (bh : String) (bHeight bTime : Nat) :
    ∀ s : Store,
      txs.foldl (fun a x => (txSteps bh bHeight bTime x).foldl (fun a f => f a) a) s
        = txs.foldl (fun a t => insert_transaction a t bh bHeight bTime) s := by
  induction txs with
  | nil => intro s; rfl
  | cons t txs ih =>
    intro s
    rw [List.foldl_cons, List.foldl_cons, foldl_txSteps, ih]

/-- The statement list of a whole block, run in order, is exactly
`insert_block`. -/
theorem foldl_blockSteps (bd : BlockData) (s : Store) :
    (blockSteps bd).foldl (fun a f => f a) s = insert_block s bd := by
  unfold blockSteps insert_block
  rw [List.foldl_cons, foldl_apply_flatMap, foldl_txSteps_list]

/-! ## Claim C1 — idempotence of re-ingestion -/

/-- C1 counterexample: re-ingesting the payload `blockA` (one
transaction with one `vin` and one `vout`) twice into an empty store
does *not* leave input/output row counts equal to the source array
lengths — `tx_inputs` and `tx_outputs` use plain `INSERT`, so both
tables end up with 2 rows where the claim requires 1. -/
theorem C1_counterexample :
    ¬ ((insert_block (insert_block Store.empty blockA) blockA).tx_inputs.length
          = (blockA.tx.map (fun t => t.vin.length)).sum
        ∧ (insert_block (insert_block Store.empty blockA) blockA).tx_outputs.length
          = (blockA.tx.map (fun t => t.vout.length)).sum) := by
  decide

/-- C1 as amended: re-ingesting the same height with the same payload
twice leaves exactly one `blocks` row for that height/hash and exactly
one `transactions` row per distinct `txid` (both tables use
`INSERT OR REPLACE`), but each ingestion appends a fresh copy of every
input and output row, so after two ingestions the `tx_inputs` /
`tx_outputs` counts are twice the source `vin` / `vout` lengths. -/
theorem C1_reingest_twice (bd : BlockData)
    (hd : bd.tx.Pairwise (fun a b => a.txid ≠ b.txid)) :
    (insert_block (insert_block Store.empty bd) bd).blocks = [blockRowOf bd]
    ∧ (∀ tx ∈ bd.tx,
        txidCount (insert_block (insert_block Store.empty bd) bd) tx.txid = 1)
    ∧ (insert_block (insert_block Store.empty bd) bd).tx_inputs.length
        = 2 * (bd.tx.map (fun t => t.vin.length)).sum
    ∧ (insert_block (insert_block Store.empty bd) bd).tx_outputs.length
        = 2 * (bd.tx.map (fun t => t.vout.length)).sum := by
  refine ⟨?_, fun tx hm => txidCount_insert_block _ bd tx hd hm, ?_, ?_⟩
  · rw [insert_block_blocks, insert_block_blocks]
    simp [upsertBlockRow, Store.empty]
  · rw [insert_block_inputs_length, insert_block_inputs_length]
    show Store.empty.tx_inputs.length + _ + _ = _
    simp [Store.empty]
    omega
  · rw [insert_block_outputs_length, insert_block_outputs_length]
    show Store.empty.tx_outputs.length + _ + _ = _
    simp [Store.empty]
    omega

/-- C1 amended, witnessed at the concrete payload `blockA`. -/
theorem C1_reingest_twice_witness :
    (insert_block (insert_block Store.empty blockA) blockA).tx_inputs.length
      = 2 * (blockA.tx.map (fun t => t.vin.length)).sum :=
  (C1_reingest_twice blockA (by decide)).2.2.1

/-! ## Claim C5 — atomicity of block persistence -/

/-- C5: block persistence is atomic.  Under every failure oracle,
`insert_block`'s transactional run returns either exactly the store
from before the call (some statement failed, `conn.rollback()` ran) or
the fully inserted store (every statement succeeded, `conn.commit()`
ran); a store containing only part of the block's rows is never
returned. -/
theorem C5_insert_block_atomic (s : Store) (bd : BlockData) (ok : Nat → Bool) :
    insert_block_txn s bd ok = s ∨ insert_block_txn s bd ok = insert_block s bd := by
  unfold insert_block_txn
  rcases runSteps_none_or_foldl ok (blockSteps bd) 0 s with h | h
  · rw [h]
    exact Or.inl rfl
  · rw [h, foldl_blockSteps]
    exact Or.inr rfl

/-! ## Claim C2 — reorg truncation and cascade deletion -/

/-- C2 (code bug evidence): truncating `store2` at fork point 0 (the
reorg triggered by `block2`) deletes the block at height 1 and its
transaction `t1`, but leaves `t1`'s input and output rows in the store:
the `DELETE FROM tx_inputs/tx_outputs … WHERE txid IN (SELECT txid FROM
transactions WHERE block_height > fork)` statements run *after* those
transactions were already deleted, so their subqueries select nothing
and the child rows are orphaned instead of removed. -/
theorem C2_truncation_orphans_children :
    handle_reorg store2 block2
      = (true, ⟨[⟨"a", 0, "", 10⟩], [],
          [⟨"t1", 0, 7, "", "p", 0⟩], [⟨"t1", 0, 50, ["addr"]⟩]⟩) := by
  decide

/-! ## Claim C3 — unresolved reorg handling -/

/-- C3 counterexample: for the incoming block `block3` (height 2,
`previousblockhash` `z` matching no stored hash) the backward walk on
`store3` exhausts below the start height without a match — yet
`handle_reorg` raises nothing and returns `(False, unchanged store)`,
and the sync step then inserts the block anyway, so ingestion of the
height *succeeds* instead of failing with `ReorgUnresolvedError` and the
loop is never aborted. -/
theorem C3_counterexample :
    findFork store3 "z" (block3.height - 1) = none
    ∧ handle_reorg store3 block3 = (false, store3)
    ∧ (sync_step store3 block3).blocks
        = store3.blocks ++ [⟨"c", 2, "z", 12⟩] := by
  decide

/-- C3 as amended: when the backward fork-point walk exhausts below
height 0 without a match (or never starts because the incoming height
is 0), `handle_reorg` performs no truncation and returns `False` with
the store untouched — no `ReorgUnresolvedError` exists in the code —
and the per-height sync step proceeds to insert the incoming block on
top of the unchanged store.  (Independently, the loop's
`except: continue` skips any failing height rather than aborting.) -/
theorem C3_unresolved_reorg_is_ignored (s : Store) (nb : BlockData) (p : String)
    (hp : nb.previousblockhash = some p) (hne : p ≠ "")
    (hdiv : ∀ b ∈ s.blocks, b.hash = p → b.height + 1 ≠ nb.height)
    (hnf : nb.height = 0 ∨ findFork s p (nb.height - 1) = none) :
    handle_reorg s nb = (false, s) ∧ sync_step s nb = insert_block s nb := by
  have hwalk : handle_reorg_walk s nb p = (false, s) := by
    unfold handle_reorg_walk
    by_cases h0 : nb.height = 0
    · rw [if_pos h0]
    · rw [if_neg h0]
      rcases hnf with h | h
      · exact absurd h h0
      · rw [h]
  have hmain : handle_reorg s nb = (false, s) := by
    unfold handle_reorg
    rw [hp]
    dsimp only
    rw [if_neg hne]
    cases hfind : s.blocks.find? (fun b => b.hash == p) with
    | none => exact hwalk
    | some pb =>
      have hmem := List.mem_of_find?_eq_some hfind
      have hhash : pb.hash = p := by
        have := List.find?_some hfind
        simpa using this
      dsimp only
      rw [if_neg (hdiv pb hmem hhash)]
      exact hwalk
  refine ⟨hmain, ?_⟩
  unfold sync_step
  rw [hmain]

/-- C3 amended, witnessed at `store3` / `block3`. -/
theorem C3_unresolved_reorg_is_ignored_witness :
    handle_reorg store3 block3 = (false, store3)
    ∧ sync_step store3 block3 = insert_block store3 block3 :=
  C3_unresolved_reorg_is_ignored store3 block3 "z" rfl (by decide) (by decide)
    (Or.inr (by decide))

/-! ## Claim C4 — the fork-point search -/

/-- C4 counterexample: local chain `a`(0) — `b`(1), remote chain
`a`(0) — `x`(1), incoming block at height 2 with `previousblockhash`
`x`.  The search the claim describes (compare the *remote* hash at each
height with the local hash) finds the fork point 0, where the chains
agree; the code's search compares every local hash with the fixed
string `x` and finds nothing, so `handle_reorg` declares no fork and
leaves the store unchanged. -/
theorem C4_counterexample :
    forkSearchSpec store3 remoteHash4 (block4.height - 1) = some 0
    ∧ findFork store3 "x" (block4.height - 1) = none
    ∧ handle_reorg store3 block4 = (false, store3) := by
  decide

/-- C4 as amended: the walk starts at `h - 1` and moves downward, but
at each visited height `k` it compares the locally stored hash at `k`
with the incoming block's fixed `previousblockhash` `p` (no remote hash
is fetched); it stops at the first (highest) height whose local hash
equals `p`, and that height is the fork point:
`findFork s p k = some fork` iff `fork` is the greatest height `≤ k`
whose stored hash is `p`. -/
theorem C4_fork_walk_uses_fixed_prev_hash (s : Store) (p : String) (k fork : Nat) :
    findFork s p k = some fork
      ↔ fork ≤ k ∧ localHashAt s fork = some p
          ∧ ∀ j, fork < j → j ≤ k → localHashAt s j ≠ some p := by
  induction k with
  | zero =>
    unfold findFork
    by_cases h : localHashAt s 0 = some p
    · rw [if_pos h]
      constructor
      · rintro h0
        obtain rfl : fork = 0 := (Option.some_inj.mp h0).symm
        exact ⟨le_refl 0, h, fun j hj hj0 => absurd (lt_of_lt_of_le hj hj0) (lt_irrefl _)⟩
      · rintro ⟨hf, _, _⟩
        obtain rfl : fork = 0 := Nat.le_zero.mp hf
        rfl
    · rw [if_neg h]
      constructor
      · rintro h0
        cases h0
      · rintro ⟨hf, hloc, _⟩
        obtain rfl : fork = 0 := Nat.le_zero.mp hf
        exact absurd hloc h
  | succ k ih =>
    unfold findFork
    by_cases h : localHashAt s (k + 1) = some p
    · rw [if_pos h]
      constructor
      · rintro h0
        obtain rfl : fork = k + 1 := (Option.some_inj.mp h0).symm
        exact ⟨le_refl _, h, fun j hj hjk => absurd (lt_of_lt_of_le hj hjk) (lt_irrefl _)⟩
      · rintro ⟨hf, hloc, hall⟩
        rcases Nat.lt_or_ge fork (k + 1) with hlt | hge
        · exact absurd h (hall (k + 1) hlt (le_refl _))
        · obtain rfl : fork = k + 1 := Nat.le_antisymm hf hge
          rfl
    · rw [if_neg h]
      rw [ih]
      constructor
      · rintro ⟨hf, hloc, hall⟩
        refine ⟨Nat.le_succ_of_le hf, hloc, fun j hj hjk => ?_⟩
        rcases Nat.lt_or_ge j (k + 1) with hlt | hge
        · exact hall j hj (Nat.lt_succ_iff.mp hlt)
        · obtain rfl : j = k + 1 := Nat.le_antisymm hjk hge
          exact h
      · rintro ⟨hf, hloc, hall⟩
        have hfk : fork ≤ k := by
          rcases Nat.lt_or_ge fork (k + 1) with hlt | hge
          · exact Nat.lt_succ_iff.mp hlt
          · obtain rfl : fork = k + 1 := Nat.le_antisymm hf hge
            exact absurd hloc h
        exact ⟨hfk, hloc, fun j hj hjk => hall j hj (Nat.le_succ_of_le hjk)⟩

/-! ## Claim C6 — audit accuracy for a single mutated hash -/

/-- C6 counterexample: `store6` holds 10 blocks (heights 0–9) of which
exactly one — height 0 — has a mutated hash (`X` instead of the remote
`b0`), every other field matching the remote chain.  `audit(10)`
reports *two* discrepancies, a `hash_mismatch` at height 0 and a
`prev_hash_mismatch` at height 1 (the prev-hash check compares the
*local* hash at height 0 with the remote `previousblockhash` at height
1), and the consistency percentage is 80, not the claimed single
discrepancy and 90.0. -/
theorem C6_counterexample :
    check_block_consistency store6 remote6 10 = some report6
    ∧ percentage report6 = 80 := by
  constructor
  · decide
  · norm_num [percentage, report6]

/-- C6 as amended: with 10 local blocks of which exactly one has a
mutated hash, the audit reports exactly one `hash_mismatch` at that
height with consistency percentage 90.0 *when the mutated block is the
window's top height* (here height 9, mutated to any `tip ≠ "b9"`); a
mutation below the top additionally yields a `prev_hash_mismatch` at
the next height and a percentage of 80.0 (see the counterexample). -/
theorem C6_audit_tip_mutation (tip : String) (h : tip ≠ "b9") :
    check_block_consistency (store6Tip tip) remote6 10 = some (report6Tip tip)
    ∧ percentage (report6Tip tip) = 90 := by
  constructor
  · have hr : List.range' 0 (9 + 1 - 0) = [0, 1, 2, 3, 4, 5, 6, 7, 8, 9] := rfl
    have h0 : heightIncons (store6Tip tip) remote6 0 0 = [] := rfl
    have h1 : heightIncons (store6Tip tip) remote6 0 1 = [] := rfl
    have h2 : heightIncons (store6Tip tip) remote6 0 2 = [] := rfl
    have h3 : heightIncons (store6Tip tip) remote6 0 3 = [] := rfl
    have h4 : heightIncons (store6Tip tip) remote6 0 4 = [] := rfl
    have h5 : heightIncons (store6Tip tip) remote6 0 5 = [] := rfl
    have h6 : heightIncons (store6Tip tip) remote6 0 6 = [] := rfl
    have h7 : heightIncons (store6Tip tip) remote6 0 7 = [] := rfl
    have h8 : heightIncons (store6Tip tip) remote6 0 8 = [] := rfl
    have h9 : heightIncons (store6Tip tip) remote6 0 9
        = (if tip = "b9" then ([] : List Inconsistency)
            else [⟨9, "hash_mismatch", tip, "b9"⟩]) ++ [] := rfl
    have hmax : maxHeight (store6Tip tip) = some 9 := rfl
    have ht : ((((9 : Nat) : Int) + 1 - ((10 : Nat) : Int)).toNat : Nat) = 0 := rfl
    have hflen : (List.filter (fun hh => (remote6 hh).isSome)
        [0, 1, 2, 3, 4, 5, 6, 7, 8, 9]).length = 10 := rfl
    have hmiss : List.filter (fun hh => (auditDbAt (store6Tip tip) hh).isNone)
        [0, 1, 2, 3, 4, 5, 6, 7, 8, 9] = [] := rfl
    unfold check_block_consistency
    rw [hmax]
    dsimp only
    rw [ht, hr]
    rw [hflen, hmiss]
    simp only [List.flatMap_cons, List.flatMap_nil, h0, h1, h2, h3, h4, h5, h6, h7,
      h8, h9]
    rw [if_neg h]
    simp [report6Tip]
  · norm_num [percentage, report6Tip]

/-- C6 amended, witnessed at the concrete mutated tip hash `Y`. -/
theorem C6_audit_tip_mutation_witness :
    check_block_consistency (store6Tip "Y") remote6 10 = some (report6Tip "Y")
    ∧ percentage (report6Tip "Y") = 90 :=
  C6_audit_tip_mutation "Y" (by decide)

/-! ## Claim C7 — audit status vs missing blocks -/

/-- C7 counterexample: `store7` is missing height 1 of the audited
window `[0, 2]`, yet the report's status is `healthy`: the missing
height is recorded only in the separate `missing_blocks` list, produces
no discrepancy record, and does not affect the status — contradicting
the claim that a missing block is a discrepancy forcing the status to
`inconsistent`. -/
theorem C7_counterexample :
    check_block_consistency store7 remote7 3 = some report7
    ∧ report7.status = "healthy" ∧ report7.missing_blocks = [1] := by
  decide

/-- C7 as amended: the report's status is `healthy` iff the
inconsistency list (`hash_mismatch` / `prev_hash_mismatch` records) is
empty; heights absent locally are reported separately in
`missing_blocks` and never enter the status. -/
theorem C7_status_iff_no_inconsistencies (s : Store) (remote : Nat → Option RemoteBlock)
    (n : Nat) (r : AuditReport) (h : check_block_consistency s remote n = some r) :
    r.status = "healthy" ↔ r.inconsistencies = [] := by
  unfold check_block_consistency at h
  cases hm : maxHeight s with
  | none => rw [hm] at h; cases h
  | some latest =>
    rw [hm] at h
    dsimp only at h
    rw [Option.some_inj] at h
    subst h
    dsimp only
    by_cases hx : ((List.range' (((latest : Int) + 1 - n).toNat)
        (latest + 1 - (((latest : Int) + 1 - n).toNat))).flatMap
          (heightIncons s remote (((latest : Int) + 1 - n).toNat))).length = 0
    · rw [if_pos hx, List.length_eq_zero.mp hx]
      simp
    · rw [if_neg hx]
      constructor
      · intro hc
        exact absurd hc (by decide)
      · intro hnil
        refine absurd ?_ hx
        rw [hnil]
        rfl

/-- C7 amended, witnessed on the audit of `store7`. -/
theorem C7_status_iff_no_inconsistencies_witness :
    report7.status = "healthy" ↔ report7.inconsistencies = [] :=
  C7_status_iff_no_inconsistencies store7 remote7 3 report7 (by decide)

/-! ## Claim C8 — sync range computation -/

/-- C8 counterexample: with a store whose highest block is at height 5,
supplying the explicit start-height override `0` does not make the sync
start at height 0 — `start_height or …` treats `0` as absent and the
start height becomes `get_db_latest_height + 1 = 6`. -/
theorem C8_counterexample :
    sync_start store8 (some 0) ≠ 0 ∧ sync_start store8 (some 0) = 6 := by
  decide

/-- C8 as amended: the starting height equals the supplied override
when that override is truthy (non-zero), and otherwise
`get_db_latest_height + 1` (which is the stored maximum plus one only
when that maximum is positive); the ending height is
`min(start + maxBlocks - 1, tip)` when `maxBlocks` is truthy and the
tip otherwise; and the visited heights are exactly the interval
`[start, end]` in strictly increasing order. -/
theorem C8_sync_range (s : Store) (v m latest a b : Int) (hv : v ≠ 0) (hm : m ≠ 0) :
    sync_start s (some v) = v
    ∧ sync_start s none = get_db_latest_height s + 1
    ∧ sync_end a (some m) latest = min (a + m - 1) latest
    ∧ sync_end a none latest = latest
    ∧ (∀ hgt : Int, hgt ∈ sync_heights a b ↔ a ≤ hgt ∧ hgt ≤ b)
    ∧ (sync_heights a b).Pairwise (· < ·) := by
  refine ⟨by simp [sync_start, hv], rfl, by simp [sync_end, hm], rfl, ?_, ?_⟩
  · intro hgt
    simp only [sync_heights, List.mem_map, List.mem_range]
    constructor
    · rintro ⟨i, hi, rfl⟩
      rw [Int.lt_toNat] at hi
      omega
    · rintro ⟨h1, h2⟩
      refine ⟨(hgt - a).toNat, ?_, ?_⟩
      · rw [Int.lt_toNat, Int.toNat_of_nonneg (by omega : (0 : Int) ≤ hgt - a)]
        omega
      · rw [Int.toNat_of_nonneg (by omega : (0 : Int) ≤ hgt - a)]
        omega
  · rw [sync_heights, List.pairwise_map]
    refine (List.pairwise_lt_range _).imp ?_
    intro i j hij
    show a + (i : Int) < a + (j : Int)
    omega

/-- C8 amended, witnessed at override 7, `maxBlocks` 3, tip 100, range
`[3, 5]`. -/
theorem C8_sync_range_witness :
    sync_start store8 (some 7) = 7
    ∧ sync_end 3 (some 3) 100 = min (3 + 3 - 1) 100
    ∧ (∀ hgt : Int, hgt ∈ sync_heights 3 5 ↔ 3 ≤ hgt ∧ hgt ≤ 5) :=
  ⟨(C8_sync_range store8 7 3 100 3 5 (by decide) (by decide)).1,
   (C8_sync_range store8 7 3 100 3 5 (by decide) (by decide)).2.2.1,
   (C8_sync_range store8 7 3 100 3 5 (by decide) (by decide)).2.2.2.2.1⟩

/-! ## Claim C9 — the checkpoint query -/

/-- C9 counterexample: on a non-empty store whose only (and hence
highest) block is at height 0, `get_db_latest_height` returns `-1`, not
the claimed `max(height) = 0`: the row value `0` is falsy in the Python
conditional expression, so the empty-table fallback `-1` is taken. -/
theorem C9_counterexample :
    maxHeight store9 = some 0 ∧ get_db_latest_height store9 = -1 := by
  decide

/-- C9 as amended: on a non-empty store the checkpoint query returns
`max(height)` when that maximum is non-zero, and `-1` when the maximum
is 0 (exactly as for an empty store). -/
theorem C9_checkpoint (s : Store) (m : Nat) (h : maxHeight s = some m) :
    get_db_latest_height s = if m = 0 then -1 else (m : Int) := by
  unfold get_db_latest_height
  rw [h]

/-- C9 amended, witnessed on the store with maximum height 5. -/
theorem C9_checkpoint_witness : get_db_latest_height store8 = 5 :=
  C9_checkpoint store8 5 (by decide)

/-! ## Claim C10 — truthiness of the sync parameters -/

/-- C10: supplying an explicit start-height override of `0` behaves
exactly as if no override were given (the start height comes from the
checkpoint plus one), and supplying `maxBlocks = 0` behaves exactly as
if `maxBlocks` were absent (the range runs to the remote tip): both
parameters are tested for truthiness, and `0` is falsy. -/
theorem C10_zero_is_falsy (s : Store) (current latest : Int) :
    sync_start s (some 0) = sync_start s none
    ∧ sync_end current (some 0) latest = sync_end current none latest := by
  constructor
  · simp [sync_start]
  · simp [sync_end]

end BitcoinETL
